import Mathlib

/-!
Shallow embedding of the iotexec service (src/src/iotexec.c).

The service receives cloud-to-device messages through the external
iotclient transport, executes the message body as a shell command via
popen, and streams the command output back through the transport.
The transport (IOTCLIENT_Receive, IOTCLIENT_GetProperty,
IOTCLIENT_Stream) and the OS calls (popen, fileno, pclose) are external
collaborators; they are modelled as oracles, and the embedding records
every call made to them as an event trace, so that properties such as
"the command is never executed" become statements about the trace.
-/

namespace Iotexec

/-- Result code EOK used by the iotclient library. -/
def EOK : Int := 0

/-- errno EINVAL (invalid argument). -/
def EINVAL : Int := 22

/-- errno EBADF (bad file descriptor). -/
def EBADF : Int := 9

/-- errno EMSGSIZE (message too large). -/
def EMSGSIZE : Int := 90

/-- errno ENOTSUP (operation not supported). -/
def ENOTSUP : Int := 95

/-- The MAX_MESSAGE_LENGTH bound from iotexec.c. -/
def MAX_MESSAGE_LENGTH : Nat := 4096

/-- The size BUFSIZ of the scratch buffer buf in ProcessCommand
(glibc value). -/
def BUFSIZ : Nat := 8192

/-- The external calls ProcessMessage and ProcessCommand make, in order:
property extraction from a header, popen of the command, the
IOTCLIENT_Stream call with the outbound headers, and pclose. -/
inductive Event where
  | getProp (header : List Char) (name : List Char)
  | popen (cmd : List Char)
  | stream (headers : List Char)
  | pclose
deriving DecidableEq, Repr

/-- Outputs of IOTCLIENT_Receive: pHeader and pBody (each may be NULL)
and the two lengths. -/
structure RecvMsg where
  header : Option (List Char)
  body : Option (List Char)
  headerLength : Nat
  bodyLength : Nat
deriving DecidableEq, Repr

/-- Oracle for the external calls made by ProcessCommand: whether popen
returns a handle, whether fileno returns a valid descriptor, and the
result IOTCLIENT_Stream reports for given outbound headers. -/
structure ExecOracle where
  popenOk : Bool
  filenoOk : Bool
  streamResult : List Char → Int

/-- Oracle for one ProcessMessage cycle: the result and outputs of the
blocking IOTCLIENT_Receive, the behaviour of IOTCLIENT_GetProperty on a
header blob (some value on EOK, none on any failure), and the
ExecOracle for the command execution stage. -/
structure MsgOracle where
  recv : Int × RecvMsg
  getProp : List Char → Option (List Char)
  exec : ExecOracle

/-- The constant base header string in ProcessCommand:
"source:exec\nmessagetype:cmdresp" (no trailing newline). -/
def headersBase : List Char := "source:exec\nmessagetype:cmdresp".toList

/-- The key text prepended to the correlation id in the snprintf format
string "%s\ncorrelationId:%s\n". -/
def correlationKey : List Char := "correlationId:".toList

/-- The property name ProcessMessage extracts from the inbound header. -/
def msgIdName : List Char := "messageId".toList

/-- The outbound headers ProcessCommand streams with: when a message id
is present, snprintf composes headersBase ++ "\ncorrelationId:" ++ id ++
"\n" into a BUFSIZ scratch buffer; the composed blob is used only when
its length n satisfies 0 < n < BUFSIZ (the snprintf no-truncation
check), otherwise the base headers are kept. -/
def procCmdHeaders : Option (List Char) → List Char
  | none => headersBase
  | some m =>
      if 0 < (headersBase ++ '\n' :: (correlationKey ++ m ++ ['\n'])).length ∧
         (headersBase ++ '\n' :: (correlationKey ++ m ++ ['\n'])).length < BUFSIZ then
        headersBase ++ '\n' :: (correlationKey ++ m ++ ['\n'])
      else
        headersBase

/-- ProcessCommand from iotexec.c: after the NULL-argument guard it
composes the outbound headers, runs popen on the command, takes fileno
of the pipe, and on success delegates to IOTCLIENT_Stream, whose result
is returned verbatim; popen failure yields ENOTSUP, fileno failure
EBADF, and pclose runs on every path where popen succeeded. -/
def ProcessCommand (pStateOk : Bool) (cmd : Option (List Char))
    (msgId : Option (List Char)) (o : ExecOracle) : Int × List Event :=
  if pStateOk = true ∧ cmd.isSome = true then
    if o.popenOk = true then
      if o.filenoOk = true then
        (o.streamResult (procCmdHeaders msgId),
         [Event.popen (cmd.getD []),
          Event.stream (procCmdHeaders msgId),
          Event.pclose])
      else
        (EBADF, [Event.popen (cmd.getD []), Event.pclose])
    else
      (ENOTSUP, [Event.popen (cmd.getD [])])
  else
    (EINVAL, [])

/-- The msgId local of ProcessMessage: NULL unless a header is present
and IOTCLIENT_GetProperty succeeds on it, in which case it is the
extracted value. -/
def extractMsgId (o : MsgOracle) : Option (List Char) :=
  match o.recv.2.header with
  | none => none
  | some hd => o.getProp hd

/-- The trace of the property-extraction stage of ProcessMessage: the
IOTCLIENT_GetProperty call happens exactly when a header is present. -/
def extractEvents (o : MsgOracle) : List Event :=
  match o.recv.2.header with
  | none => []
  | some hd => [Event.getProp hd msgIdName]

/-- ProcessMessage from iotexec.c: wait for a message; on receive
failure return that result. On EOK, first try to extract the messageId
property when a header is present; then, only if the body is non-NULL
and headerLength + bodyLength < MAX_MESSAGE_LENGTH, NUL-terminate the
body at bodyLength and run it through ProcessCommand; otherwise return
EMSGSIZE. -/
def ProcessMessage (o : MsgOracle) : Int × List Event :=
  if o.recv.1 = EOK then
    if o.recv.2.body.isSome = true ∧
       o.recv.2.headerLength + o.recv.2.bodyLength < MAX_MESSAGE_LENGTH then
      ((ProcessCommand true (some ((o.recv.2.body.getD []).take o.recv.2.bodyLength))
          (extractMsgId o) o.exec).1,
       extractEvents o ++
         (ProcessCommand true (some ((o.recv.2.body.getD []).take o.recv.2.bodyLength))
            (extractMsgId o) o.exec).2)
    else
      (EMSGSIZE, extractEvents o)
  else
    (o.recv.1, [])

/-- The dispatch loop of ProcessMessages, `while (true) ProcessMessage`,
unrolled to its first n iterations: the oracle stream gives the
transport behaviour of each cycle, and the cycle results are collected
in order. The C loop body is exactly one ProcessMessage call and
nothing in it can leave the loop. -/
def ProcessMessages (os : Nat → MsgOracle) : Nat → List (Int × List Event)
  | 0 => []
  | n + 1 => ProcessMessages os n ++ [ProcessMessage (os n)]

/-- Split a character list on newline characters, for talking about the
lines of a header blob. -/
def splitNl : List Char → List (List Char)
  | [] => [[]]
  | c :: rest =>
      if c = '\n' then [] :: splitNl rest
      else
        match splitNl rest with
        | [] => [[c]]
        | l :: ls => (c :: l) :: ls

/-- An ExecOracle on which every external call succeeds. -/
def execOk : ExecOracle := ⟨true, true, fun _ => EOK⟩

/-- An ExecOracle on which popen fails to produce a handle. -/
def execNoPopen : ExecOracle := ⟨false, true, fun _ => EOK⟩

/-- A received message carrying messageId abc123 and body date, with a
transport whose GetProperty extracts that id. -/
def msgWithId : MsgOracle :=
  ⟨(EOK, ⟨some "messageId:abc123".toList, some "date".toList, 17, 4⟩),
   fun _ => some "abc123".toList, execOk⟩

/-- A received message with no header at all and body echo hello. -/
def msgNoHeader : MsgOracle :=
  ⟨(EOK, ⟨none, some "echo hello".toList, 0, 10⟩),
   fun _ => none, execOk⟩

/-- An oversized received message: a header carrying a messageId and
lengths summing to exactly MAX_MESSAGE_LENGTH. -/
def bigMsg : MsgOracle :=
  ⟨(EOK, ⟨some "messageId:abc".toList, some "x".toList, 4095, 1⟩),
   fun _ => some "abc".toList, execOk⟩

/-- A received message whose body pointer is NULL although the lengths
are well within bounds. -/
def noBodyMsg : MsgOracle :=
  ⟨(EOK, ⟨some "messageId:abc".toList, none, 13, 0⟩),
   fun _ => some "abc".toList, execOk⟩

/-- A message whose header is present but carries no messageId
property. -/
def msgNoId : MsgOracle :=
  ⟨(EOK, ⟨some "foo:bar".toList, some "date".toList, 7, 4⟩),
   fun _ => none, execOk⟩

/-- A correlation id too long for the BUFSIZ scratch buffer. -/
def hugeId : List Char := List.replicate BUFSIZ 'a'

/-! Helper lemmas shared by the claim theorems. -/

theorem stream_notin_extractEvents (o : MsgOracle) (h : List Char) :
    Event.stream h ∉ extractEvents o := by
  unfold extractEvents
  cases o.recv.2.header <;> simp

theorem popen_notin_extractEvents (o : MsgOracle) (c : List Char) :
    Event.popen c ∉ extractEvents o := by
  unfold extractEvents
  cases o.recv.2.header <;> simp

theorem PC_snd_stream {st : Bool} {cmd msgId : Option (List Char)}
    {o : ExecOracle} {h : List Char}
    (hmem : Event.stream h ∈ (ProcessCommand st cmd msgId o).2) :
    h = procCmdHeaders msgId := by
  unfold ProcessCommand at hmem
  split at hmem
  · split at hmem
    · split at hmem <;> simp_all
    · simp_all
  · simp_all

theorem composed_length (m : List Char) :
    (headersBase ++ '\n' :: (correlationKey ++ m ++ ['\n'])).length
      = 47 + m.length := by
  have h1 : headersBase.length = 31 := rfl
  have h2 : correlationKey.length = 14 := rfl
  simp [List.length_append, h1, h2]
  omega

theorem procCmdHeaders_fit (m : List Char) (hm : m.length + 47 < BUFSIZ) :
    procCmdHeaders (some m)
      = headersBase ++ '\n' :: (correlationKey ++ m ++ ['\n']) := by
  show (if _ ∧ _ then _ else _) = _
  rw [if_pos]
  rw [composed_length]
  omega

theorem procCmdHeaders_nofit (m : List Char) (hm : BUFSIZ ≤ m.length + 47) :
    procCmdHeaders (some m) = headersBase := by
  show (if _ ∧ _ then _ else _) = _
  rw [if_neg]
  rw [composed_length]
  omega

theorem PM_run (o : MsgOracle) (hr : o.recv.1 = EOK)
    (hb : o.recv.2.body.isSome = true)
    (hsz : o.recv.2.headerLength + o.recv.2.bodyLength < MAX_MESSAGE_LENGTH) :
    ProcessMessage o =
      ((ProcessCommand true
          (some ((o.recv.2.body.getD []).take o.recv.2.bodyLength))
          (extractMsgId o) o.exec).1,
       extractEvents o ++
         (ProcessCommand true
           (some ((o.recv.2.body.getD []).take o.recv.2.bodyLength))
           (extractMsgId o) o.exec).2) := by
  unfold ProcessMessage
  rw [if_pos hr, if_pos ⟨hb, hsz⟩]

theorem PM_reject (o : MsgOracle) (hr : o.recv.1 = EOK)
    (hbad : ¬(o.recv.2.body.isSome = true ∧
       o.recv.2.headerLength + o.recv.2.bodyLength < MAX_MESSAGE_LENGTH)) :
    ProcessMessage o = (EMSGSIZE, extractEvents o) := by
  unfold ProcessMessage
  rw [if_pos hr, if_neg hbad]

theorem PM_recvErr (o : MsgOracle) (hr : ¬(o.recv.1 = EOK)) :
    ProcessMessage o = (o.recv.1, []) := by
  unfold ProcessMessage
  rw [if_neg hr]

theorem PM_stream_headers (o : MsgOracle) (h : List Char)
    (hmem : Event.stream h ∈ (ProcessMessage o).2) :
    h = procCmdHeaders (extractMsgId o) := by
  unfold ProcessMessage at hmem
  split at hmem
  · split at hmem
    · simp only [List.mem_append] at hmem
      rcases hmem with hmem | hmem
      · exact absurd hmem (stream_notin_extractEvents o h)
      · exact PC_snd_stream hmem
    · exact absurd hmem (stream_notin_extractEvents o h)
  · simp at hmem

/-! Claim theorems. -/

/-- Claim C1: for every received message with headerLength + bodyLength
at least MAX_MESSAGE_LENGTH (4096), ProcessMessage never executes the
body as a command — no popen call and no IOTCLIENT_Stream call appears
in the trace — and the result is EMSGSIZE. -/
theorem c1_too_large (o : MsgOracle) (hr : o.recv.1 = EOK)
    (hsz : MAX_MESSAGE_LENGTH ≤ o.recv.2.headerLength + o.recv.2.bodyLength) :
    (ProcessMessage o).1 = EMSGSIZE ∧
    (∀ c, Event.popen c ∉ (ProcessMessage o).2) ∧
    (∀ h, Event.stream h ∉ (ProcessMessage o).2) := by
  have hbad : ¬(o.recv.2.body.isSome = true ∧
      o.recv.2.headerLength + o.recv.2.bodyLength < MAX_MESSAGE_LENGTH) := by
    intro hcon
    exact absurd hcon.2 (by omega)
  rw [PM_reject o hr hbad]
  exact ⟨rfl, fun c => popen_notin_extractEvents o c,
         fun h => stream_notin_extractEvents o h⟩

/-- Witness for C1 at the concrete oversized message bigMsg
(headerLength 4095, bodyLength 1). -/
theorem c1_witness :
    (ProcessMessage bigMsg).1 = EMSGSIZE ∧
    Event.popen "x".toList ∉ (ProcessMessage bigMsg).2 ∧
    Event.stream headersBase ∉ (ProcessMessage bigMsg).2 :=
  ⟨(c1_too_large bigMsg rfl (by decide)).1,
   (c1_too_large bigMsg rfl (by decide)).2.1 _,
   (c1_too_large bigMsg rfl (by decide)).2.2 _⟩

/-- Claim C10: for every successful receive whose body pointer is NULL,
ProcessMessage returns EMSGSIZE — not EINVAL — and no command is
executed, even when headerLength + bodyLength < MAX_MESSAGE_LENGTH. -/
theorem c10_null_body (o : MsgOracle) (hr : o.recv.1 = EOK)
    (hb : o.recv.2.body = none)
    (_hsz : o.recv.2.headerLength + o.recv.2.bodyLength < MAX_MESSAGE_LENGTH) :
    (ProcessMessage o).1 = EMSGSIZE ∧
    (ProcessMessage o).1 ≠ EINVAL ∧
    (∀ c, Event.popen c ∉ (ProcessMessage o).2) := by
  have hbad : ¬(o.recv.2.body.isSome = true ∧
      o.recv.2.headerLength + o.recv.2.bodyLength < MAX_MESSAGE_LENGTH) := by
    intro hcon
    rw [hb] at hcon
    exact absurd hcon.1 (by decide)
  rw [PM_reject o hr hbad]
  exact ⟨rfl, by show EMSGSIZE ≠ EINVAL; decide,
         fun c => popen_notin_extractEvents o c⟩

/-- Witness for C10 at noBodyMsg (NULL body, lengths 13 + 0 < 4096). -/
theorem c10_witness :
    (ProcessMessage noBodyMsg).1 = EMSGSIZE ∧
    (ProcessMessage noBodyMsg).1 ≠ EINVAL ∧
    Event.popen "date".toList ∉ (ProcessMessage noBodyMsg).2 :=
  ⟨(c10_null_body noBodyMsg rfl rfl (by decide)).1,
   (c10_null_body noBodyMsg rfl rfl (by decide)).2.1,
   (c10_null_body noBodyMsg rfl rfl (by decide)).2.2 _⟩

/-- Claim C5: for every command for which popen returns no handle,
ProcessCommand returns ENOTSUP and IOTCLIENT_Stream is never called,
so no reply message is published for that command. -/
theorem c5_popen_fails (cmd : List Char) (msgId : Option (List Char))
    (o : ExecOracle) (hp : o.popenOk = false) :
    (ProcessCommand true (some cmd) msgId o).1 = ENOTSUP ∧
    (∀ h, Event.stream h ∉ (ProcessCommand true (some cmd) msgId o).2) := by
  have hpc : ProcessCommand true (some cmd) msgId o
      = (ENOTSUP, [Event.popen cmd]) := by
    unfold ProcessCommand
    rw [hp]
    simp
  rw [hpc]
  exact ⟨rfl, fun h => by simp⟩

/-- Witness for C5 at a concrete command with a failing popen. -/
theorem c5_witness :
    (ProcessCommand true (some "nosuchcmd".toList) none execNoPopen).1 = ENOTSUP ∧
    Event.stream headersBase ∉
      (ProcessCommand true (some "nosuchcmd".toList) none execNoPopen).2 :=
  ⟨(c5_popen_fails "nosuchcmd".toList none execNoPopen rfl).1,
   (c5_popen_fails "nosuchcmd".toList none execNoPopen rfl).2 _⟩

/-- Claim C7: when the correlation id is present but composing the base
headers plus the correlationId line does not fit the BUFSIZ scratch
buffer, ProcessCommand streams with the base headers instead of
failing: the command is still executed via popen and the response is
still sent through IOTCLIENT_Stream. -/
theorem c7_overflow_fallback (cmd m : List Char) (o : ExecOracle)
    (hm : BUFSIZ ≤ m.length + 47)
    (hp : o.popenOk = true) (hf : o.filenoOk = true) :
    ProcessCommand true (some cmd) (some m) o =
      (o.streamResult headersBase,
       [Event.popen cmd, Event.stream headersBase, Event.pclose]) := by
  unfold ProcessCommand
  rw [hp, hf, procCmdHeaders_nofit m hm]
  simp

/-- Witness for C7 at a correlation id of length BUFSIZ. -/
theorem c7_witness :
    ProcessCommand true (some "date".toList) (some hugeId) execOk =
      (EOK, [Event.popen "date".toList, Event.stream headersBase,
             Event.pclose]) :=
  c7_overflow_fallback "date".toList hugeId execOk
    (by simp only [hugeId, List.length_replicate]; omega) rfl rfl

/-- Claim C2: for every received message whose header carries a
messageId property with value X of length below 64 and whose extraction
succeeds, the headers handed to every IOTCLIENT_Stream call of that
cycle contain the line correlationId:X, delimited by newlines. -/
theorem c2_correlation (o : MsgOracle) (hd X : List Char)
    (hhdr : o.recv.2.header = some hd)
    (hget : o.getProp hd = some X)
    (hX : X.length < 64) :
    ∀ h, Event.stream h ∈ (ProcessMessage o).2 →
      ∃ pre post, h = pre ++ '\n' :: (correlationKey ++ X ++ '\n' :: post) := by
  intro h hmem
  have hh := PM_stream_headers o h hmem
  have hmsg : extractMsgId o = some X := by
    unfold extractMsgId
    rw [hhdr]
    exact hget
  rw [hmsg, procCmdHeaders_fit X (by have hB : BUFSIZ = 8192 := rfl; omega)] at hh
  exact ⟨headersBase, [], hh⟩

/-- Witness for C2 at msgWithId, whose header carries
messageId:abc123. -/
theorem c2_witness :
    ∃ pre post,
      procCmdHeaders (some "abc123".toList)
        = pre ++ '\n' :: (correlationKey ++ "abc123".toList ++ '\n' :: post) :=
  c2_correlation msgWithId "messageId:abc123".toList "abc123".toList rfl rfl
    (by decide) (procCmdHeaders (some "abc123".toList)) (by decide)

/-- Claim C3: for every received message on which no messageId is
obtained (no header at all, or GetProperty fails on it), every
IOTCLIENT_Stream call of that cycle is made with exactly the two lines
source:exec and messagetype:cmdresp, and no correlationId line. -/
theorem c3_no_correlation (o : MsgOracle)
    (hno : extractMsgId o = none) :
    ∀ h, Event.stream h ∈ (ProcessMessage o).2 →
      h = headersBase ∧
      splitNl h = ["source:exec".toList, "messagetype:cmdresp".toList] ∧
      ∀ v, (correlationKey ++ v) ∉ splitNl h := by
  intro h hmem
  have hh := PM_stream_headers o h hmem
  rw [hno] at hh
  have hbase : h = headersBase := hh
  subst hbase
  refine ⟨rfl, by decide, ?_⟩
  intro v hvmem
  have hsplit : splitNl headersBase
      = ["source:exec".toList, "messagetype:cmdresp".toList] := by decide
  rw [hsplit] at hvmem
  rcases List.mem_cons.mp hvmem with he | hvmem2
  · have h1 : (correlationKey ++ v).head? = some 'c' := rfl
    rw [he] at h1
    exact absurd h1 (by decide)
  · rcases List.mem_cons.mp hvmem2 with he | he
    · have h1 : (correlationKey ++ v).head? = some 'c' := rfl
      rw [he] at h1
      exact absurd h1 (by decide)
    · exact absurd he (List.not_mem_nil _)

/-- Witness for C3 at msgNoHeader (no header at all). -/
theorem c3_witness :
    splitNl headersBase
      = ["source:exec".toList, "messagetype:cmdresp".toList] ∧
    (correlationKey ++ "abc123".toList) ∉ splitNl headersBase :=
  ⟨(c3_no_correlation msgNoHeader rfl headersBase (by decide)).2.1,
   (c3_no_correlation msgNoHeader rfl headersBase (by decide)).2.2 _⟩

/-- Claim C4 counterexample: on the oversized message bigMsg, whose
lengths sum to MAX_MESSAGE_LENGTH so that validation fails, the trace
of ProcessMessage nevertheless contains the GetProperty extraction
call — extraction is attempted on a message that fails validation,
contrary to the claim. -/
theorem c4_counterexample :
    MAX_MESSAGE_LENGTH ≤ bigMsg.recv.2.headerLength + bigMsg.recv.2.bodyLength ∧
    (ProcessMessage bigMsg).1 = EMSGSIZE ∧
    Event.getProp "messageId:abc".toList msgIdName ∈ (ProcessMessage bigMsg).2 := by
  decide

/-- Claim C4 as amended: whenever a header is present, ProcessMessage
attempts the messageId extraction first — the GetProperty call is the
first event of the trace, before the size validation — and a message
that fails the size validation still yields EMSGSIZE with no command
execution. -/
theorem c4_extract_first (o : MsgOracle) (hd : List Char)
    (hr : o.recv.1 = EOK) (hhdr : o.recv.2.header = some hd) :
    ((ProcessMessage o).2).head? = some (Event.getProp hd msgIdName) ∧
    (¬(o.recv.2.headerLength + o.recv.2.bodyLength < MAX_MESSAGE_LENGTH) →
      (ProcessMessage o).1 = EMSGSIZE ∧
      ∀ c, Event.popen c ∉ (ProcessMessage o).2) := by
  have hev : extractEvents o = [Event.getProp hd msgIdName] := by
    unfold extractEvents
    rw [hhdr]
  by_cases hcase : o.recv.2.body.isSome = true ∧
      o.recv.2.headerLength + o.recv.2.bodyLength < MAX_MESSAGE_LENGTH
  · rw [PM_run o hr hcase.1 hcase.2]
    constructor
    · rw [hev]
      rfl
    · intro hbig
      exact absurd hcase.2 hbig
  · rw [PM_reject o hr hcase]
    constructor
    · rw [hev]
      rfl
    · intro hbig
      exact ⟨rfl, fun c => popen_notin_extractEvents o c⟩

/-- Witness for the amended C4 at bigMsg. -/
theorem c4_witness :
    ((ProcessMessage bigMsg).2).head?
      = some (Event.getProp "messageId:abc".toList msgIdName) ∧
    (ProcessMessage bigMsg).1 = EMSGSIZE ∧
    Event.popen "x".toList ∉ (ProcessMessage bigMsg).2 :=
  ⟨(c4_extract_first bigMsg "messageId:abc".toList rfl rfl).1,
   ((c4_extract_first bigMsg "messageId:abc".toList rfl rfl).2 (by decide)).1,
   ((c4_extract_first bigMsg "messageId:abc".toList rfl rfl).2 (by decide)).2 _⟩

/-- Claim C6 counterexample: with the correlation id abc123 present the
composed header blob does end in a newline — its last character is the
newline the snprintf format string appends after the correlationId
line — contradicting the claim that the blob never ends with a newline
with or without a correlationId. -/
theorem c6_counterexample :
    (procCmdHeaders (some "abc123".toList)).getLast? = some '\n' := by
  decide

/-- Claim C6 as amended: without a correlationId the blob is exactly
source:exec then messagetype:cmdresp separated by a single newline and
does not end with a newline; with a correlationId that fits the
scratch buffer, the blob appends a newline, the correlationId line and
a trailing newline, so it does end with a newline after its last
line. -/
theorem c6_layout (m : List Char) (hm : m.length + 47 < BUFSIZ) :
    procCmdHeaders none = headersBase ∧
    splitNl (procCmdHeaders none)
      = ["source:exec".toList, "messagetype:cmdresp".toList] ∧
    (procCmdHeaders none).getLast? ≠ some '\n' ∧
    procCmdHeaders (some m)
      = headersBase ++ '\n' :: (correlationKey ++ m ++ ['\n']) ∧
    (procCmdHeaders (some m)).getLast? = some '\n' := by
  refine ⟨rfl, by decide, by decide, procCmdHeaders_fit m hm, ?_⟩
  rw [procCmdHeaders_fit m hm]
  have hshape : headersBase ++ '\n' :: (correlationKey ++ m ++ ['\n'])
      = (headersBase ++ '\n' :: (correlationKey ++ m)) ++ ['\n'] := by
    simp
  rw [hshape, List.getLast?_concat]

/-- Witness for the amended C6 at the correlation id abc123. -/
theorem c6_witness :
    procCmdHeaders none = headersBase ∧
    splitNl (procCmdHeaders none)
      = ["source:exec".toList, "messagetype:cmdresp".toList] ∧
    (procCmdHeaders none).getLast? ≠ some '\n' ∧
    procCmdHeaders (some "abc123".toList)
      = headersBase ++ '\n' :: (correlationKey ++ "abc123".toList ++ ['\n']) ∧
    (procCmdHeaders (some "abc123".toList)).getLast? = some '\n' :=
  c6_layout "abc123".toList (by decide)

/-- Claim C8: processing is stateless across cycles — in a two-cycle
run the outcome of the second cycle is unchanged when the message of
the first cycle is replaced by anything else, and every header blob
streamed in the second cycle is either the bare base headers or the
blob composed from a messageId extracted from the own header of the
second message, so a correlationId can only appear on reply 2 when
message 2 itself carries that messageId. -/
theorem c8_stateless (os os' : Nat → MsgOracle) (hagree : os 1 = os' 1) :
    (ProcessMessages os 2)[1]? = (ProcessMessages os' 2)[1]? ∧
    ∀ h, Event.stream h ∈ (ProcessMessage (os 1)).2 →
      h = headersBase ∨
      ∃ hd v, (os 1).recv.2.header = some hd ∧ (os 1).getProp hd = some v ∧
        h = procCmdHeaders (some v) := by
  constructor
  · have h1 : (ProcessMessages os 2)[1]? = some (ProcessMessage (os 1)) := rfl
    have h2 : (ProcessMessages os' 2)[1]? = some (ProcessMessage (os' 1)) := rfl
    rw [h1, h2, hagree]
  · intro h hmem
    have hh := PM_stream_headers (os 1) h hmem
    rcases hhd : (os 1).recv.2.header with _ | hd
    · left
      rw [show extractMsgId (os 1) = none from by
            unfold extractMsgId; rw [hhd]] at hh
      exact hh
    · rcases hgp : (os 1).getProp hd with _ | v
      · left
        rw [show extractMsgId (os 1) = none from by
              unfold extractMsgId; rw [hhd]; exact hgp] at hh
        exact hh
      · right
        refine ⟨hd, v, rfl, hgp, ?_⟩
        rw [show extractMsgId (os 1) = some v from by
              unfold extractMsgId; rw [hhd]; exact hgp] at hh
        exact hh

/-- Witness for C8: the message of the first cycle is swapped between
msgWithId and msgNoHeader while the second cycle is msgWithId in both
runs; the entry of the second cycle is unchanged and its streamed
headers are the blob composed from the messageId carried by message 2
itself. -/
theorem c8_witness :
    (ProcessMessages (fun _ => msgWithId) 2)[1]?
      = (ProcessMessages (fun n => if n = 0 then msgNoHeader else msgWithId) 2)[1]? ∧
    (procCmdHeaders (some "abc123".toList) = headersBase ∨
     ∃ hd v, msgWithId.recv.2.header = some hd ∧
       msgWithId.getProp hd = some v ∧
       procCmdHeaders (some "abc123".toList) = procCmdHeaders (some v)) :=
  ⟨(c8_stateless (fun _ => msgWithId)
      (fun n => if n = 0 then msgNoHeader else msgWithId) rfl).1,
   (c8_stateless (fun _ => msgWithId)
      (fun n => if n = 0 then msgNoHeader else msgWithId) rfl).2
     (procCmdHeaders (some "abc123".toList)) (by decide)⟩

/-- The dispatch loop performs exactly one ProcessMessage per
iteration. -/
theorem PMs_length (os : Nat → MsgOracle) (n : Nat) :
    (ProcessMessages os n).length = n := by
  induction n with
  | zero => rfl
  | succ m ih => simp [ProcessMessages, ih]

/-- Every iteration of the dispatch loop is exactly the ProcessMessage
of the oracle of its own cycle. -/
theorem PMs_getElem (os : Nat → MsgOracle) :
    ∀ n i, i < n →
      (ProcessMessages os n)[i]? = some (ProcessMessage (os i)) := by
  intro n
  induction n with
  | zero => intro i hi; exact absurd hi (Nat.not_lt_zero i)
  | succ m ih =>
      intro i hi
      rw [ProcessMessages]
      rcases Nat.lt_succ_iff_lt_or_eq.mp hi with hlt | heq
      · rw [List.getElem?_append_left (by rw [PMs_length]; exact hlt)]
        exact ih i hlt
      · subst heq
        have hc := List.getElem?_concat_length (ProcessMessages os i)
          (ProcessMessage (os i))
        rw [PMs_length] at hc
        exact hc

/-- Claim C9: the dispatch loop never terminates and re-enters the
receive unconditionally — after n iterations, whatever result each
cycle had (receive error, EMSGSIZE, ENOTSUP, a Stream error, or EOK,
since the oracle stream is arbitrary), exactly n cycles have run and
cycle i is precisely the processing of the message received in cycle
i. -/
theorem c9_loop (os : Nat → MsgOracle) (n i : Nat) (hi : i < n) :
    (ProcessMessages os n).length = n ∧
    (ProcessMessages os n)[i]? = some (ProcessMessage (os i)) :=
  ⟨PMs_length os n, PMs_getElem os n i hi⟩

/-- Witness for C9: three cycles of msgNoHeader; the loop has run all
three and the middle cycle is the processing of its own message. -/
theorem c9_witness :
    (ProcessMessages (fun _ => msgNoHeader) 3).length = 3 ∧
    (ProcessMessages (fun _ => msgNoHeader) 3)[1]?
      = some (ProcessMessage msgNoHeader) :=
  c9_loop (fun _ => msgNoHeader) 3 1 (by decide)

end Iotexec
